import Mathlib

/-!
Verification development for the ai-translator browser extension.

The definitions below are a shallow embedding of the repository's
TypeScript sources:
  * `src/content/twitter-parser.ts` and its fuller variant (the tweet
    classifier/parser whose five-strategy validity cascade the design
    document describes),
  * `src/content/index.ts` (mutation observer, debounce, processed-set
    tracker, per-element processing),
  * `src/content/ui-injector.ts` (button injection, result rendering,
    HTML escaping),
  * `src/utils/cache.ts`, `src/utils/api.ts`, `src/background/index.ts`
    (cache store, retry logic, background translate handler).

JavaScript strings are modelled as Lean `String`s over their characters
(`charCodeAt` = `Char.toNat`; exact for the Basic Multilingual Plane,
which covers every input used in the theorems below).  JavaScript
numbers on the metric-parsing path are modelled as `JsNumber`
(`nan` or an exact rational); on all inputs appearing in theorems the
rational arithmetic agrees with IEEE double arithmetic.  32-bit integer
operations (`Math.imul`, `<<`, `>>>`, `&`, `^`, `| 0`) are modelled
with explicit `% 2 ^ 32` arithmetic.
-/

/-! ## JavaScript string primitives -/

/-- The whitespace characters relevant to JS `\s` / `trim` for the
strings handled here (space, tab, newline, carriage return, form feed,
vertical tab). -/
def jsWs (c : Char) : Bool :=
  c = ' ' || c = '\t' || c = '\n' || c = '\r' || c = '\x0b' || c = '\x0c'

/-- `String.prototype.trim` on the character list. -/
def trimL (l : List Char) : List Char :=
  ((l.dropWhile jsWs).reverse.dropWhile jsWs).reverse

/-- `String.prototype.trim`. -/
def jsTrim (s : String) : String := String.mk (trimL s.data)

/-- One step of `replace(/\s+/g, ' ')`: every maximal run of whitespace
becomes a single space (a whitespace character followed by another
whitespace character contributes nothing; the last character of a run
contributes one space). -/
def collapseRuns : List Char → List Char
  | [] => []
  | [c] => if jsWs c then [' '] else [c]
  | c :: c2 :: rest =>
    if jsWs c then
      if jsWs c2 then collapseRuns (c2 :: rest)
      else ' ' :: collapseRuns (c2 :: rest)
    else c :: collapseRuns (c2 :: rest)

/-- `text.replace(/\s+/g, ' ').trim()` as used by the text extractor. -/
def collapseWs (l : List Char) : List Char := trimL (collapseRuns l)

/-- ASCII upper-casing, the effect of `toUpperCase` on the inputs here. -/
def jsToUpper (s : String) : String := String.mk (s.data.map Char.toUpper)

/-- ASCII lower-casing, the effect of `toLowerCase` on the inputs here. -/
def jsToLower (s : String) : String := String.mk (s.data.map Char.toLower)

/-- Substring containment on lists: `pat` occurs contiguously in `l`. -/
def hasSub : List Char → List Char → Bool
  | l, pat =>
    if pat.isPrefixOf l then true
    else
      match l with
      | [] => false
      | _ :: xs => hasSub xs pat

/-- Substring containment, the semantics of `href.includes(pat)` and of
the CSS attribute selector `[href*=pat]`. -/
def containsSub (s pat : String) : Bool := hasSub s.data pat.data

/-- `String.prototype.startsWith` on lists. -/
def startsWithL (pat l : List Char) : Bool := pat.isPrefixOf l

/-- The test `/^https?:\/\//.test(text)`. -/
def startsWithUrl (l : List Char) : Bool :=
  startsWithL "http://".data l || startsWithL "https://".data l

/-- Drop a literal from the front of a list, or fail. -/
def dropLit : List Char → List Char → Option (List Char)
  | [], l => some l
  | _ :: _, [] => none
  | p :: ps, x :: xs => if p = x then dropLit ps xs else none

/-- The JS regex match `href.match(/\/status\/(\d+)/)`, returning the
first capture group: scanning left to right, the first position where
the literal `/status/` is followed by at least one ASCII digit wins,
and the capture is the maximal digit run there. -/
def statusScan : List Char → Option (List Char)
  | [] => none
  | c :: cs =>
    match dropLit "/status/".data (c :: cs) with
    | some rest =>
      let ds := rest.takeWhile Char.isDigit
      if ds.isEmpty then statusScan cs else some ds
    | none => statusScan cs

/-- Remove the first occurrence of a character
(`String.prototype.replace` with a one-character string pattern). -/
def removeFirst : List Char → Char → List Char
  | [], _ => []
  | x :: xs, c => if x = c then xs else x :: removeFirst xs c

/-- Remove every occurrence of a character (`replace(/c/g, '')`). -/
def removeAll (l : List Char) (c : Char) : List Char := l.filter (· ≠ c)

/-- Value of a digit list, most significant first. -/
def digitsToNat (l : List Char) : Nat :=
  l.foldl (fun a c => a * 10 + (c.toNat - 48)) 0

/-! ## JavaScript numbers (metric-parsing path) -/

/-- A JS number as used on the metric-parsing path: `nan`, or an exact
rational value. -/
inductive JsNumber where
  | nan : JsNumber
  | num (q : ℚ) : JsNumber
deriving DecidableEq

/-- Character-level front end of `parseFloat`: skip leading
whitespace, optional sign, then decimal digits with an optional
fraction part; `none` when no digit is found.  Returns the sign, the
integer digits and the fraction digits. -/
def parseFloatParts (s : String) : Option (Bool × List Char × List Char) :=
  let l := s.data.dropWhile jsWs
  let sign : Bool × List Char :=
    match l with
    | '-' :: r => (true, r)
    | '+' :: r => (false, r)
    | _ => (false, l)
  let ds1 := sign.2.takeWhile Char.isDigit
  let r1 := sign.2.dropWhile Char.isDigit
  let ds2 : List Char :=
    match r1 with
    | '.' :: r2 => r2.takeWhile Char.isDigit
    | _ => []
  if ds1.isEmpty && ds2.isEmpty then none
  else some (sign.1, ds1, ds2)

/-- `parseFloat`: the parsed decimal as an exact rational, `nan` when
no digit is found.  (The exponent form is not modelled; no input in
this development uses it.) -/
def jsParseFloat (s : String) : JsNumber :=
  match parseFloatParts s with
  | none => .nan
  | some (sg, ds1, ds2) =>
    let m : ℚ := (digitsToNat (ds1 ++ ds2) : ℚ) / ((10 : ℚ) ^ ds2.length)
    .num (if sg then -m else m)

/-- `parseInt(s, 10)`: skip leading whitespace, optional sign, leading
digits; `none` (NaN) when no digit is found. -/
def jsParseInt (s : String) : Option Int :=
  let l := s.data.dropWhile jsWs
  let sign : Bool × List Char :=
    match l with
    | '-' :: r => (true, r)
    | '+' :: r => (false, r)
    | _ => (false, l)
  let ds := sign.2.takeWhile Char.isDigit
  if ds.isEmpty then none
  else some (if sign.1 then -(digitsToNat ds : Int) else (digitsToNat ds : Int))

/-- Multiplication by a literal constant (`num * 1000`). -/
def jsMulNat (x : JsNumber) (k : Nat) : JsNumber :=
  match x with
  | .nan => .nan
  | .num q => .num (q * k)

/-- `Math.round`: round half toward positive infinity; NaN-preserving. -/
def jsRound (x : JsNumber) : JsNumber :=
  match x with
  | .nan => .nan
  | .num q => .num ((⌊q + 1 / 2⌋ : ℤ) : ℚ)

/-! ## 32-bit integer helpers -/

/-- `ToInt32`: normalize an integer into `[-2^31, 2^31)`. -/
def toInt32 (n : Int) : Int := (n + 2 ^ 31) % 2 ^ 32 - 2 ^ 31

/-- `Math.imul` viewed on unsigned 32-bit representatives. -/
def imulU (a b : Nat) : Nat := a * b % 2 ^ 32

/-- Digit character for `toString(36)`. -/
def b36digit (n : Nat) : Char :=
  if n < 10 then Char.ofNat (48 + n) else Char.ofNat (87 + n)

/-- Fuel-driven base-36 digit expansion. -/
def natToBase36Aux : Nat → Nat → List Char
  | 0, _ => []
  | fuel + 1, n =>
    if n < 36 then [b36digit n]
    else natToBase36Aux fuel (n / 36) ++ [b36digit (n % 36)]

/-- `Number.prototype.toString(36)` for non-negative integers. -/
def natToBase36 (n : Nat) : String := String.mk (natToBase36Aux (n + 1) n)

/-! ## DOM model

A DOM subtree is an element node (tag, attributes, children) or a text
node.  Tags and attribute names are stored lower-case; `tagName`
comparisons in the source (`element.tagName === 'ARTICLE'`) are mapped
to lower-case tag comparisons.  Selector queries search the proper
descendants of the queried element in document (pre-)order, as
`querySelector`/`querySelectorAll` do.  `closest` is modelled inside
the given subtree: ancestors above the root of the modelled subtree
are not represented.
-/

inductive Dom where
  | text (s : String) : Dom
  | elem (tag : String) (attrs : List (String × String)) (children : List Dom) : Dom

/-- `getAttribute`: first binding of the attribute, if any. -/
def getAttr (d : Dom) (name : String) : Option String :=
  match d with
  | .text _ => none
  | .elem _ attrs _ => (attrs.find? (fun p => p.1 == name)).map (·.2)

/-- The element's tag, with `""` for text nodes. -/
def tagOf (d : Dom) : String :=
  match d with
  | .text _ => ""
  | .elem t _ _ => t

/-- Whether the node is an element. -/
def isElem (d : Dom) : Bool :=
  match d with
  | .text _ => false
  | .elem _ _ _ => true

mutual

/-- Proper element descendants of a node in document (pre-)order. -/
def descendants : Dom → List Dom
  | .text _ => []
  | .elem _ _ cs => descList cs

def descList : List Dom → List Dom
  | [] => []
  | d :: ds =>
    (match d with
     | .elem _ _ _ => d :: descendants d
     | .text _ => []) ++ descList ds

end

/-- `querySelector`: first descendant satisfying the predicate. -/
def querySelectorP (p : Dom → Bool) (e : Dom) : Option Dom :=
  (descendants e).find? p

mutual

/-- Element descendants, each paired with whether some ancestor (within
the modelled subtree, root included, the element itself excluded)
satisfies `anc`.  Used for `closest`-style checks and for descendant
combinators in selectors. -/
def scanEls (anc : Dom → Bool) (flag : Bool) : Dom → List (Dom × Bool)
  | .text _ => []
  | .elem t a cs => scanElsL anc (flag || anc (.elem t a cs)) cs

def scanElsL (anc : Dom → Bool) (flag : Bool) : List Dom → List (Dom × Bool)
  | [] => []
  | d :: ds =>
    (match d with
     | .elem _ _ _ => (d, flag) :: scanEls anc flag d
     | .text _ => []) ++ scanElsL anc flag ds

end

/-- Descendants with ancestor flag, starting from the queried root
(the root itself counts as a potential ancestor). -/
def descendantsCtx (anc : Dom → Bool) (e : Dom) : List (Dom × Bool) :=
  scanEls anc false e

mutual

/-- Element descendants, each paired with its nearest `a`-tagged
ancestor within the subtree (for `timeElement.closest('a')`). -/
def scanAnc (cur : Option Dom) : Dom → List (Dom × Option Dom)
  | .text _ => []
  | .elem t a cs =>
    scanAncL (if t == "a" then some (.elem t a cs) else cur) cs

def scanAncL (cur : Option Dom) : List Dom → List (Dom × Option Dom)
  | [] => []
  | d :: ds =>
    (match d with
     | .elem _ _ _ => (d, cur) :: scanAnc cur d
     | .text _ => []) ++ scanAncL cur ds

end

mutual

/-- `textContent`: concatenation of all text-node data in the subtree. -/
def textContentL : Dom → List Char
  | .text s => s.data
  | .elem _ _ cs => textContentLs cs

def textContentLs : List Dom → List Char
  | [] => []
  | d :: ds => textContentL d ++ textContentLs ds

end

mutual

/-- `textContent` after the extractor's clone-and-replace step that
turns every `br` element into a `"\n"` text node. -/
def textContentBrL : Dom → List Char
  | .text s => s.data
  | .elem t _ cs => if t == "br" then ['\n'] else textContentBrLs cs

def textContentBrLs : List Dom → List Char
  | [] => []
  | d :: ds => textContentBrL d ++ textContentBrLs ds

end

mutual

/-- HTML well-formedness used by the text lemmas: `br` is a void
element and has no children (true of every real DOM). -/
def brOk : Dom → Bool
  | .text _ => true
  | .elem t _ cs => (t != "br" || cs.isEmpty) && brOkL cs

def brOkL : List Dom → Bool
  | [] => true
  | d :: ds => brOk d && brOkL ds

end

/-! ## Selector predicates used by the tweet parser -/

/-- `[data-testid="tweetText"]`. -/
def isTweetText (d : Dom) : Bool := getAttr d "data-testid" == some "tweetText"

/-- `[data-testid="tweet"]`. -/
def isTweetAttr (d : Dom) : Bool := getAttr d "data-testid" == some "tweet"

/-- `[data-testid="cellInnerDiv"]`. -/
def isCellInner (d : Dom) : Bool := getAttr d "data-testid" == some "cellInnerDiv"

/-- `[data-testid="User-Name"]`. -/
def isUserName (d : Dom) : Bool := getAttr d "data-testid" == some "User-Name"

/-- `[data-testid="socialContext"]`. -/
def isSocialContext (d : Dom) : Bool :=
  getAttr d "data-testid" == some "socialContext"

/-- `[lang]`: any element carrying a `lang` attribute. -/
def hasLangAttr (d : Dom) : Bool := (getAttr d "lang").isSome

/-- `time`. -/
def isTimeEl (d : Dom) : Bool := isElem d && tagOf d == "time"

/-- `span`. -/
def isSpanEl (d : Dom) : Bool := isElem d && tagOf d == "span"

/-- `a[href*="/status/"]`: the parser's tweet-link selector. -/
def isStatusAnchor (d : Dom) : Bool :=
  isElem d && tagOf d == "a" &&
    (match getAttr d "href" with
     | some h => containsSub h "/status/"
     | none => false)

/-- `a[href^="/"]`: a relative (profile-shaped) anchor. -/
def isSlashAnchor (d : Dom) : Bool :=
  isElem d && tagOf d == "a" &&
    (match getAttr d "href" with
     | some h => startsWithL "/".data h.data
     | none => false)

/-- `button, a[role="link"]`: the interactive-control selector used by
`closest` in the validity cascade. -/
def isCtrl (d : Dom) : Bool :=
  isElem d && (tagOf d == "button" ||
    (tagOf d == "a" && getAttr d "role" == some "link"))

/-- `div[dir="auto"]`. -/
def isDivAuto (d : Dom) : Bool :=
  isElem d && tagOf d == "div" && getAttr d "dir" == some "auto"

/-- All span descendants in document order, each flagged with whether it
sits inside a `button` or `a[role="link"]` control. -/
def spansWithCtrl (e : Dom) : List (Dom × Bool) :=
  (descendantsCtx isCtrl e).filter (fun p => isSpanEl p.1)

/-- `querySelectorAll('span')` in document order. -/
def spanList (e : Dom) : List Dom := (spansWithCtrl e).map (·.1)

/-- `querySelector('div[dir="auto"] span')`: first span descendant that
has a `div[dir="auto"]` ancestor within the subtree. -/
def firstDivAutoSpan (e : Dom) : Option Dom :=
  (((descendantsCtx isDivAuto e).filter
      (fun p => isSpanEl p.1 && p.2)).map (·.1)).head?

/-- `timeElement.closest('a')` for the first `time` descendant:
the nearest enclosing `a` element within the subtree. -/
def firstTimeAnchor (e : Dom) : Option Dom :=
  match (scanAnc (if tagOf e == "a" then some e else none) e).find?
      (fun p => isTimeEl p.1) with
  | some (_, anc) => anc
  | none => none

namespace TweetParser

/-! ## `TweetParser` (classifier/parser variant with the five-strategy
validity cascade, `src/unnamed/part_002`; `extractText`, `parseCount`,
`hashText` and the social-context checks are shared verbatim with
`src/content/twitter-parser.ts`). -/

/-- The `span` scan of validity strategy 3: trimmed text longer than 10
characters, not a bare URL, not inside a button or link-role control. -/
def spanQualifies (p : Dom × Bool) : Bool :=
  let text := trimL (textContentL p.1)
  decide (text.length > 10) && !startsWithUrl text && !p.2

/-- `isValidTweetElement` (five-strategy variant):
container gate (article / `data-testid="tweet"` / `cellInnerDiv`), then
tweet-text attribute, `lang` attribute, qualifying long span,
timestamp + user link, and finally the tweet attribute alone. -/
def isValidTweetElement (e : Dom) : Bool :=
  let isArticle := tagOf e == "article"
  let hasTweetAttribute := isTweetAttr e || (querySelectorP isTweetAttr e).isSome
  let isCellInnerDiv := isCellInner e
  if !isArticle && !hasTweetAttribute && !isCellInnerDiv then false
  else if (querySelectorP isTweetText e).isSome then true
  else if (querySelectorP hasLangAttr e).isSome then true
  else if (spansWithCtrl e).any spanQualifies then true
  else if (querySelectorP isTimeEl e).isSome &&
            (querySelectorP isSlashAnchor e).isSome then true
  else hasTweetAttribute

/-- `extractText`: tweet-text attribute node, else first
`div[dir="auto"] span`, else the first span with more than 10 trimmed
characters; the chosen node is cloned, `br` elements become `"\n"`,
whitespace runs collapse to single spaces, and the result is trimmed. -/
def extractText (e : Dom) : String :=
  let render := fun (t : Dom) => String.mk (collapseWs (textContentBrL t))
  match querySelectorP isTweetText e with
  | some t => render t
  | none =>
    match firstDivAutoSpan e with
    | some t => render t
    | none =>
      match (spanList e).find?
          (fun sp => decide ((trimL (textContentL sp)).length > 10)) with
      | some t => render t
      | none => ""

/-- One step of the rolling 32-bit hash:
`hash = ((hash << 5) - hash) + char; hash = hash & hash`. -/
def hashStep (h : Int) (c : Nat) : Int := toInt32 (toInt32 (h * 32) - h + c)

/-- `hashText`: rolling 32-bit hash of the text, absolute value,
base 36. -/
def hashText (s : String) : String :=
  natToBase36 (Int.natAbs (s.data.foldl (fun h c => hashStep h c.toNat) 0))

/-- The status id extracted from an anchor: `getAttribute('href')`
followed by the `/\/status\/(\d+)/` match (with the JS truthiness check
on the attribute value). -/
def anchorStatusId (a : Dom) : Option String :=
  match getAttr a "href" with
  | some href => if href = "" then none else (statusScan href.data).map String.mk
  | none => none

/-- `extractTweetId` (variant with the timestamp fallback): status-link
anchor, else the anchor wrapping the first `time` element, else the
rolling hash of the extracted text, else a fresh time+random id.  The
impure last resort (`Date.now` + `Math.random`) is supplied as the
`freshId` parameter. -/
def extractTweetId (e : Dom) (freshId : String) : String :=
  let m1 : Option String :=
    match querySelectorP isStatusAnchor e with
    | some lnk => anchorStatusId lnk
    | none => none
  match m1 with
  | some tid => tid
  | none =>
    let m2 : Option String :=
      match firstTimeAnchor e with
      | some lnk => anchorStatusId lnk
      | none => none
    match m2 with
    | some tid => tid
    | none =>
      let text := extractText e
      if text ≠ "" then hashText text else freshId

/-- `extractTimestamp`: `datetime` attribute of the first `time`
element, else the current time (`now` parameter). -/
def extractTimestamp (e : Dom) (now : String) : String :=
  match querySelectorP isTimeEl e with
  | some t =>
    match getAttr t "datetime" with
    | some dt => if dt = "" then now else dt
    | none => now
  | none => now

/-- `isReplyTweet`: the social-context block's lower-cased text contains
a reply marker. -/
def isReplyTweet (e : Dom) : Bool :=
  match querySelectorP isSocialContext e with
  | some sc =>
    let text := jsToLower (String.mk (textContentL sc))
    containsSub text "replying to" || containsSub text "回复"
  | none => false

/-- `isRetweetTweet`: the social-context block's lower-cased text
contains a repost marker. -/
def isRetweetTweet (e : Dom) : Bool :=
  match querySelectorP isSocialContext e with
  | some sc =>
    let text := jsToLower (String.mk (textContentL sc))
    containsSub text "retweeted" || containsSub text "reposted" ||
      containsSub text "转推" || containsSub text "转发"
  | none => false

/-- The parsed-tweet fields the verified claims are about.  The author,
url, metrics and media fields of the source record are total,
exception-free extractions that cannot change `parse`'s optionality;
metrics parsing is modelled separately (`parseCount`,
`extractMetrics`). -/
structure ParsedTweet where
  id : String
  text : String
  timestamp : String
  isReply : Bool
  isRetweet : Bool
deriving DecidableEq

/-- `TweetParser.parse`: validate, extract the id (never empty in this
variant, so the id guard only rejects an empty fresh id), then build
the record. -/
def parse (e : Dom) (freshId now : String) : Option ParsedTweet :=
  if !isValidTweetElement e then none
  else
    let tweetId := extractTweetId e freshId
    if tweetId = "" then none
    else
      some { id := tweetId
             text := extractText e
             timestamp := extractTimestamp e now
             isReply := isReplyTweet e
             isRetweet := isRetweetTweet e }

/-- `parseCount`: `"1.2K"`-style counts.  `undefined` is `none`; a NaN
field value is `some JsNumber.nan`. -/
def parseCount (text : Option String) : Option JsNumber :=
  match text with
  | none => none
  | some t =>
    if t = "" then none
    else
      let cleanText := jsToUpper (jsTrim t)
      if cleanText = "" then none
      else if cleanText.data.contains 'K' then
        some (jsRound (jsMulNat
          (jsParseFloat (String.mk (removeFirst cleanText.data 'K'))) 1000))
      else if cleanText.data.contains 'M' then
        some (jsRound (jsMulNat
          (jsParseFloat (String.mk (removeFirst cleanText.data 'M'))) 1000000))
      else
        match jsParseInt (String.mk (removeAll cleanText.data ',')) with
        | none => none
        | some n => some (.num n)

/-- The optional metric counts of a tweet. -/
structure TweetMetrics where
  replies : Option JsNumber
  retweets : Option JsNumber
  likes : Option JsNumber
deriving DecidableEq

/-- `extractMetrics`, abstracted over the text content of the three
metric elements (`none` = element absent): a field is set only when
`parseCount` does not return `undefined`. -/
def extractMetrics (replyText retweetText likeText : Option String) :
    TweetMetrics :=
  { replies := replyText.bind (fun t => parseCount (some t))
    retweets := retweetText.bind (fun t => parseCount (some t))
    likes := likeText.bind (fun t => parseCount (some t)) }

end TweetParser

/-! ## Content script: mutation observer and debounce
(`observeDOM` / `handleMutations`, `src/content/index.ts`).

The `MutationObserver` callback cancels any pending debounce timer and
schedules `handleMutations(mutations)` over the *current* callback's
records; DOM nodes are identified by numbers. -/

/-- A mutation record: the ids of its added nodes. -/
structure MRec where
  addedNodes : List Nat
deriving DecidableEq

/-- Debounce state of `observeDOM`: the record list captured by the
pending timer (if any), and the record lists already handed to
`handleMutations`, in order. -/
structure ObsState where
  pending : Option (List MRec)
  passes : List (List MRec)
deriving DecidableEq

/-- The observer callback: `clearTimeout` on the pending timer, then
`setTimeout(() => handleMutations(mutations), 100)` capturing only the
current batch. -/
def observerCallback (s : ObsState) (mutations : List MRec) : ObsState :=
  { s with pending := some mutations }

/-- The debounce timer firing: the pending batch becomes one
classification pass. -/
def debounceFire (s : ObsState) : ObsState :=
  match s.pending with
  | some ms => { pending := none, passes := s.passes ++ [ms] }
  | none => s

/-- A whole debounce window: every batch arrives before the timer can
fire (each arrival cancels and restarts the 100 ms timer), then the
timer fires once. -/
def windowRun (batches : List (List MRec)) : ObsState :=
  debounceFire (batches.foldl observerCallback { pending := none, passes := [] })

/-- The added nodes examined by `handleMutations` for a record list
(the double loop over `mutations` and `mutation.addedNodes`). -/
def collectAdded : List MRec → List Nat
  | [] => []
  | r :: rs => r.addedNodes ++ collectAdded rs

/-- A node is covered by the window when some performed pass examines
it. -/
def coveredBy (s : ObsState) (n : Nat) : Prop :=
  ∃ ms ∈ s.passes, n ∈ collectAdded ms

/-! ## Content script: processed-set tracker and injection dedup
(`processTweetElement`, `cleanupProcessedTweets`, `src/content/index.ts`;
`UIInjector.injectTranslateButton`, `src/content/ui-injector.ts`).

`processedTweets` is a JS `Set<string>` (insertion-ordered, duplicates
ignored); nodes are identified by numbers and the
`data-ai-translator-processed` marker is the `markedNodes` set.  The
`invoked`/`created` counters are ghost instrumentation counting calls
of `injectTranslateButton` and creations of the injected container
subtree. -/

/-- `Set.prototype.add`: append if absent. -/
def jsSetAdd {α : Type} [DecidableEq α] (s : List α) (x : α) : List α :=
  if x ∈ s then s else s ++ [x]

/-- `UIInjector` state: the `uiStates` map keys plus ghost counters. -/
structure InjState where
  uiIds : List String
  invoked : String → Nat
  created : String → Nat

/-- Bump a counter at one key. -/
def bumpAt (f : String → Nat) (id : String) : String → Nat :=
  fun x => if x = id then f x + 1 else f x

/-- `injectTranslateButton`: count the invocation; if the id already
has UI, return; otherwise create the container subtree (count it) and
record the id.  (`findTweetTextContainer` always succeeds: its last
strategy returns the tweet element itself.) -/
def injectTranslateButton (s : InjState) (id : String) : InjState :=
  if id ∈ s.uiIds then { s with invoked := bumpAt s.invoked id }
  else { uiIds := id :: s.uiIds
         invoked := bumpAt s.invoked id
         created := bumpAt s.created id }

/-- Content-script state: marked nodes, the processed-id set, injector. -/
structure CState where
  markedNodes : List Nat
  processedTweets : List String
  inj : InjState

/-- `processTweetElement`: skip marked nodes; skip unparseable nodes;
skip already-processed ids; otherwise mark, record and inject.  The
parser outcome for the node is abstracted as `parsed` (the claim holds
for every outcome). -/
def processTweetElement (s : CState) (node : Nat) (parsed : Option String) :
    CState :=
  if node ∈ s.markedNodes then s
  else
    match parsed with
    | none => s
    | some id =>
      if id ∈ s.processedTweets then s
      else
        { markedNodes := node :: s.markedNodes
          processedTweets := jsSetAdd s.processedTweets id
          inj := injectTranslateButton s.inj id }

/-- The initial content-script state. -/
def initCState : CState :=
  { markedNodes := []
    processedTweets := []
    inj := { uiIds := [], invoked := fun _ => 0, created := fun _ => 0 } }

/-- Replay a history of `processTweetElement` calls from the initial
state. -/
def runHistory (hist : List (Nat × Option String)) : CState :=
  hist.foldl (fun s e => processTweetElement s e.1 e.2) initCState

/-- `cleanupProcessedTweets`: keep the most recent 1000 entries by
deleting the first `size - 1000` values yielded by the set's
insertion-order iterator. -/
def cleanupProcessedTweets {α : Type} (s : List α) : List α :=
  if s.length > 1000 then s.drop (s.length - 1000) else s

/-- Insert a sequence of ids into an empty set. -/
def insertAll {α : Type} [DecidableEq α] (xs : List α) : List α :=
  xs.foldl jsSetAdd []

/-! ## Cache store (`src/utils/cache.ts`)

`chrome.storage.local` is an association list from keys to entries;
timestamps are milliseconds as naturals. -/

/-- A cache entry. -/
structure CacheEntry where
  key : String
  sourceText : String
  translatedText : String
  sourceLang : String
  targetLang : String
  timestamp : Nat
  tokensUsed : Nat
  hitCount : Nat
deriving DecidableEq

/-- The storage area. -/
abbrev Store : Type := List (String × CacheEntry)

/-- `chrome.storage.local.get(key)`. -/
def storageGet (st : Store) (k : String) : Option CacheEntry :=
  ((List.find? (fun p => p.1 == k) st)).map (·.2)

/-- `chrome.storage.local.set({[key]: entry})`: replace or append. -/
def storageSet (st : Store) (k : String) (e : CacheEntry) : Store :=
  match st with
  | [] => [(k, e)]
  | p :: rest => if p.1 = k then (k, e) :: rest else p :: storageSet rest k e

/-- `chrome.storage.local.remove(key)`. -/
def storageRemove (st : Store) (k : String) : Store :=
  st.filter (fun p => p.1 ≠ k)

/-- The cache key namespace `at:cache:v1:`. -/
def cacheKeyBase : String := "at:cache:v1:"

/-- `cyrb53`: the 53-bit string hash, in unsigned 32-bit arithmetic,
rendered base 36. -/
def cyrb53 (str : String) (seed : Nat) : String :=
  let h1 := Nat.xor 0xdeadbeef seed
  let h2 := Nat.xor 0x41c6ce57 seed
  let hp := str.data.foldl
    (fun (p : Nat × Nat) ch =>
      let c := ch.toNat
      (imulU (Nat.xor p.1 c) 2654435761, imulU (Nat.xor p.2 c) 1597334677))
    (h1, h2)
  let g1 := Nat.xor (imulU (Nat.xor hp.1 (hp.1 / 65536)) 2246822507)
                    (imulU (Nat.xor hp.2 (hp.2 / 8192)) 3266489909)
  let g2 := Nat.xor (imulU (Nat.xor hp.2 (hp.2 / 65536)) 2246822507)
                    (imulU (Nat.xor g1 (g1 / 8192)) 3266489909)
  natToBase36 (4294967296 * (g2 % 2097152) + g1)

/-- `generateCacheKey`. -/
def generateCacheKey (text targetLang : String) : String :=
  cacheKeyBase ++ targetLang ++ ":" ++ cyrb53 text 0

/-- `isExpired`. -/
def isExpired (now timestamp maxAge : Nat) : Bool :=
  decide ((now : Int) - (timestamp : Int) > (maxAge : Int))

/-- `getCacheEntry`: purge blank or expired entries on read; bump the
hit counter on a hit and write the entry back.  Returns the entry (if
served) and the updated store. -/
def getCacheEntry (st : Store) (now maxAge : Nat) (k : String) :
    Option CacheEntry × Store :=
  match storageGet st k with
  | none => (none, st)
  | some e =>
    if jsTrim e.translatedText = "" then (none, storageRemove st k)
    else if isExpired now e.timestamp maxAge then (none, storageRemove st k)
    else
      let bumped := { e with hitCount := e.hitCount + 1 }
      (some bumped, storageSet st k bumped)

/-- `getCachedTranslation`. -/
def getCachedTranslation (st : Store) (now maxAge : Nat)
    (text targetLang : String) : Option CacheEntry × Store :=
  getCacheEntry st now maxAge (generateCacheKey text targetLang)

/-- `getAllCacheEntries`: the values under the cache prefix. -/
def getAllCacheEntries (st : Store) : List CacheEntry :=
  (st.filter (fun p => startsWithL cacheKeyBase.data p.1.data)).map (·.2)

/-- `cleanupOldestEntries`: remove the `count` entries with the oldest
timestamps (stable sort, as `Array.prototype.sort` on this data). -/
def cleanupOldestEntries (st : Store) (count : Nat) : Store :=
  let entries := getAllCacheEntries st
  let sorted := entries.mergeSort (fun a b => a.timestamp ≤ b.timestamp)
  let keysToRemove := (sorted.take count).map (·.key)
  st.filter (fun p => p.1 ∉ keysToRemove)

/-- `setCacheEntry`: evict one oldest entry when the cache is full,
then write. -/
def setCacheEntry (st : Store) (maxEntries : Nat) (e : CacheEntry) : Store :=
  let currentEntries := getAllCacheEntries st
  let st1 := if currentEntries.length ≥ maxEntries
             then cleanupOldestEntries st 1 else st
  storageSet st1 e.key e

/-- `cacheTranslation`: refuse to store blank translations; otherwise
build the entry and store it. -/
def cacheTranslation (st : Store) (now maxEntries : Nat)
    (text translatedText sourceLang targetLang : String)
    (tokensUsed : Nat) : Store :=
  if jsTrim translatedText = "" then st
  else
    setCacheEntry st maxEntries
      { key := generateCacheKey text targetLang
        sourceText := text
        translatedText := translatedText
        sourceLang := sourceLang
        targetLang := targetLang
        timestamp := now
        tokensUsed := tokensUsed
        hitCount := 0 }

/-! ## API layer (`src/utils/api.ts`) -/

/-- A typed translation failure (`TranslationErrorWrapper`). -/
structure TranslationErr where
  code : String
  retryable : Bool
deriving DecidableEq

/-- The ways the `fetch` inside `sendTranslationRequest` can fail. -/
inductive FetchFailure where
  | abortTimeout : FetchFailure
  | fetchTypeError : FetchFailure
  | other (msg : String) : FetchFailure
deriving DecidableEq

/-- The catch-block classification in `sendTranslationRequest`:
network errors and timeouts are retryable; the abort raised by the
timeout timer becomes `NETWORK_TIMEOUT`. -/
def classifyFetchFailure : FetchFailure → TranslationErr
  | .fetchTypeError => { code := "NETWORK_ERROR", retryable := true }
  | .abortTimeout => { code := "NETWORK_TIMEOUT", retryable := true }
  | .other _ => { code := "UNKNOWN_ERROR", retryable := true }

/-- `message?.content?.trim() || ''`: the text produced by a successful
provider response with raw content `raw`. -/
def apiResultText (raw : Option String) : String :=
  jsTrim (raw.getD "")

/-- `calculateBackoff`: exponential backoff with additive jitter,
capped at 30 s.  `jitter` is the value of `Math.random() * 1000`. -/
def calculateBackoff (attempt : Nat) (jitter : ℚ) : ℚ :=
  min ((2 : ℚ) ^ attempt * 1000 + jitter) 30000

/-- `DEFAULT_CONFIG.advanced.retryAttempts` (`src/types/index.ts`). -/
def defaultRetryAttempts : Nat := 3

/-- `translateWithRetry`: the provider outcome of the `n`-th call is
`res n`; retryable failures retry while `attempt < maxRetries`, with
delay `calculateBackoff attempt (jit attempt)`.  Returns the final
outcome, the number of provider calls made, and the backoff delays
slept. -/
def translateWithRetry (res : Nat → Except TranslationErr String)
    (jit : Nat → ℚ) (maxRetries : Nat) (attempt : Nat) :
    Except TranslationErr String × Nat × List ℚ :=
  match res attempt with
  | .ok v => (.ok v, 1, [])
  | .error e =>
    if h : e.retryable = true ∧ attempt < maxRetries then
      let r := translateWithRetry res jit maxRetries (attempt + 1)
      (r.1, r.2.1 + 1, calculateBackoff attempt (jit attempt) :: r.2.2)
    else (.error e, 1, [])
termination_by maxRetries - attempt
decreasing_by omega

/-! ## Background translate handler (`src/background/index.ts`) -/

/-- The configuration fields the handler reads. -/
structure BgConfig where
  apiKey : String
  endpoint : String
  cacheEnabled : Bool
  cacheMaxAge : Nat
  cacheMaxEntries : Nat
deriving DecidableEq

/-- The handler's reply to the content script. -/
inductive BgResponse where
  | result (translatedText : String) (fromCache : Bool) : BgResponse
  | error (code : String) (retryable : Bool) : BgResponse
deriving DecidableEq

/-- `handleTranslateRequest`: config and input guards, cache lookup,
provider call (`translateWithRetry`, abstracted as its outcome `prov`),
write-back, response.  The returned `Bool` records whether the
completion provider was invoked. -/
def handleTranslateRequest (cfg : BgConfig) (st : Store) (now : Nat)
    (text targetLang sourceLang : String)
    (prov : Except TranslationErr (String × Nat)) :
    BgResponse × Bool × Store :=
  if cfg.apiKey = "" then (.error "CONFIG_MISSING_API_KEY" false, false, st)
  else if cfg.endpoint = "" then
    (.error "CONFIG_INVALID_ENDPOINT" false, false, st)
  else if jsTrim text = "" then (.error "CONTENT_EMPTY" false, false, st)
  else
    let callApi : Store → BgResponse × Bool × Store := fun st0 =>
      match prov with
      | .error e => (.error e.code e.retryable, true, st0)
      | .ok (t, tokensUsed) =>
        let st1 := if cfg.cacheEnabled then
            cacheTranslation st0 now cfg.cacheMaxEntries
              text t "auto" targetLang tokensUsed
          else st0
        (.result t false, true, st1)
    if cfg.cacheEnabled then
      match getCachedTranslation st now cfg.cacheMaxAge text targetLang with
      | (some cached, st2) => (.result cached.translatedText true, false, st2)
      | (none, st2) => callApi st2
    else callApi st

/-! ## Content-script response rendering (`handleTranslateRequest` in
`src/content/index.ts`) and UI injection (`src/content/ui-injector.ts`). -/

/-- What the content script does with the background's reply:
`TRANSLATE_RESULT` is rendered via `showTranslation`, errors via
`showError`. -/
inductive UIAction where
  | showTranslationA (text : String) : UIAction
  | showErrorA (message : String) : UIAction
deriving DecidableEq

/-- Dispatch on the background reply. -/
def uiActionOf : BgResponse → UIAction
  | .result t _ => .showTranslationA t
  | .error code _ => .showErrorA code

/-- `escapeHtml` for one character: the entity encoding performed by
`div.textContent = text; div.innerHTML` for text content. -/
def escChar (c : Char) : List Char :=
  if c = '&' then "&amp;".data
  else if c = '<' then "&lt;".data
  else if c = '>' then "&gt;".data
  else [c]

/-- `escapeHtml` on a character list. -/
def escList : List Char → List Char
  | [] => []
  | c :: cs => escChar c ++ escList cs

/-- `UIInjector.escapeHtml`. -/
def escapeHtml (s : String) : String := String.mk (escList s.data)

/-- The markup of `showTranslation` before the interpolated
`${this.escapeHtml(translatedText)}`. -/
def showTranslationPre : String :=
  "\n      <div class=\"at-result-header\">\n        <span class=\"at-result-label\">\n          <svg viewBox=\"0 0 24 24\" width=\"12\" height=\"12\" fill=\"currentColor\">\n            <path d=\"M12.87 15.07l-2.54-2.51.03-.03c1.74-1.94 2.98-4.17 3.71-6.53H17V4h-7V2H8v2H1v1.99h11.17C11.5 7.92 10.44 9.75 9 11.35 8.07 10.32 7.3 9.19 6.69 8h-2c.73 1.63 1.73 3.17 2.98 4.56l-5.09 5.02L4 19l5-5 3.11 3.11.76-2.04zM18.5 10h-2L12 22h2l1.12-3h4.75L21 22h2l-4.5-12zm-2.62 7l1.62-4.33L19.12 17h-3.24z\"/>\n          </svg>\n          AI 翻译\n        </span>\n        <div class=\"at-result-actions\">\n          <button class=\"at-action-btn at-copy-btn\">复制</button>\n          <button class=\"at-action-btn at-collapse-btn\">收起</button>\n        </div>\n      </div>\n      <div class=\"at-result-text\">"

/-- The markup of `showTranslation` after the interpolation. -/
def showTranslationPost : String := "</div>\n    "

/-- The `result.innerHTML` assigned by `showTranslation`. -/
def showTranslationHtml (translatedText : String) : String :=
  showTranslationPre ++ escapeHtml translatedText ++ showTranslationPost

/-- The markup of `showError` before the interpolated
`${this.escapeHtml(errorMessage)}`. -/
def showErrorPre : String :=
  "\n      <svg viewBox=\"0 0 24 24\" fill=\"currentColor\">\n        <path d=\"M12 2C6.48 2 2 6.48 2 12s4.48 10 10 10 10-4.48 10-10S17.52 2 12 2zm1 15h-2v-2h2v2zm0-4h-2V7h2v6z\"/>\n      </svg>\n      <span>"

/-- The markup of `showError` after the interpolation. -/
def showErrorPost : String := "</span>\n    "

/-- The `error.innerHTML` assigned by `showError`. -/
def showErrorHtml (errorMessage : String) : String :=
  showErrorPre ++ escapeHtml errorMessage ++ showErrorPost

/-! ## Concrete example inputs used by counterexamples and witnesses -/

/-- A 30-character text span. -/
def exSpan30 : Dom := .elem "span" [] [.text "abcdefghijklmnopqrstuvwxyz1234"]

/-- Scenario A content: a status-42 anchor, a `time` element and a
30-character text span. -/
def scenarioChildren : List Dom :=
  [ .elem "a" [("href", "/user/status/42")] [.text "link"],
    .elem "time" [("datetime", "2024-01-01T00:00:00Z")] [],
    exSpan30 ]

/-- Scenario A inside a plain `div` container. -/
def c1DivContainer : Dom := .elem "div" [] scenarioChildren

/-- Scenario A inside an `article` container. -/
def c1ArticleContainer : Dom := .elem "article" [] scenarioChildren

/-- A node holding a digit-less status anchor first and the status-42
anchor second, plus a long text span. -/
def c5Container : Dom := .elem "div" []
  [ .elem "a" [("href", "/x/status/abc")] [.text "one"],
    .elem "a" [("href", "/y/status/42")] [.text "two"],
    .elem "span" [] [.text "hello wonderful world"] ]

/-- A fresh, non-blank cache entry for (`"Hello"`, `"zh"`). -/
def exEntry : CacheEntry :=
  { key := generateCacheKey "Hello" "zh"
    sourceText := "Hello"
    translatedText := "你好"
    sourceLang := "en"
    targetLang := "zh"
    timestamp := 1000
    tokensUsed := 7
    hitCount := 0 }

/-- A store holding exactly that entry. -/
def exStore : Store := [(generateCacheKey "Hello" "zh", exEntry)]

/-- A fully configured background, cache enabled. -/
def cfgOk : BgConfig :=
  { apiKey := "sk-test"
    endpoint := "https://api.example.com"
    cacheEnabled := true
    cacheMaxAge := 604800000
    cacheMaxEntries := 1000 }

/-- The same configuration with the API key missing. -/
def cfgNoKey : BgConfig :=
  { apiKey := ""
    endpoint := "https://api.example.com"
    cacheEnabled := true
    cacheMaxAge := 604800000
    cacheMaxEntries := 1000 }

/-! # Theorems -/

/-! ## Shared list helpers -/

theorem find?_isSome_of_exists {α : Type} {p : α → Bool} {l : List α}
    (h : ∃ x ∈ l, p x = true) : ∃ y, l.find? p = some y := by
  cases hf : l.find? p with
  | some y => exact ⟨y, rfl⟩
  | none =>
    obtain ⟨x, hx, hpx⟩ := h
    have := List.find?_eq_none.mp hf x hx
    simp [hpx] at this

theorem mem_dropWhile_of_neg {α : Type} {p : α → Bool} {c : α} {l : List α}
    (hc : p c = false) (h : c ∈ l) : c ∈ l.dropWhile p := by
  have hsplit := List.takeWhile_append_dropWhile p l
  rw [← hsplit] at h
  rcases List.mem_append.mp h with htake | hdrop
  · have := List.mem_takeWhile_imp htake
    simp [hc] at this
  · exact hdrop

theorem mem_trimL {c : Char} {l : List Char}
    (hc : jsWs c = false) (h : c ∈ l) : c ∈ trimL l := by
  unfold trimL
  rw [List.mem_reverse]
  exact mem_dropWhile_of_neg hc (by
    rw [List.mem_reverse]
    exact mem_dropWhile_of_neg hc h)

theorem mem_collapseRuns {c : Char} (hc : jsWs c = false) :
    ∀ l : List Char, c ∈ l → c ∈ collapseRuns l
  | [], h => by cases h
  | [c0], h => by
    have he : c = c0 := List.mem_singleton.mp h
    subst he
    rw [collapseRuns, if_neg (by rw [hc]; exact Bool.false_ne_true)]
    exact List.mem_singleton.mpr rfl
  | c0 :: c2 :: t, h => by
    rw [collapseRuns]
    by_cases h0 : jsWs c0 = true
    · rw [if_pos h0]
      have hcr : c ∈ c2 :: t := by
        rcases List.mem_cons.mp h with he | hm
        · subst he; rw [h0] at hc; cases hc
        · exact hm
      by_cases h2 : jsWs c2 = true
      · rw [if_pos h2]
        exact mem_collapseRuns hc _ hcr
      · rw [if_neg h2]
        exact List.mem_cons_of_mem _ (mem_collapseRuns hc _ hcr)
    · rw [if_neg h0]
      rcases List.mem_cons.mp h with he | hm
      · subst he; exact List.mem_cons_self _ _
      · exact List.mem_cons_of_mem _ (mem_collapseRuns hc _ hm)

theorem exists_not_ws_of_trim_ne_nil {l : List Char}
    (h : trimL l ≠ []) : ∃ c ∈ l, jsWs c = false := by
  by_contra hall
  push_neg at hall
  have hws : ∀ c ∈ l, jsWs c = true := by
    intro c hcl
    have := hall c hcl
    revert this
    cases jsWs c <;> simp
  apply h
  unfold trimL
  have h1 : l.dropWhile jsWs = [] := List.dropWhile_eq_nil_iff.mpr hws
  rw [h1]
  simp

theorem string_mk_ne_empty_of_mem {l : List Char} {c : Char}
    (h : c ∈ l) : String.mk l ≠ "" := by
  intro he
  have : l = [] := by
    have := congrArg String.data he
    simpa using this
  subst this
  cases h

/-! ## C9: metric-count parsing -/

/-- C9 (counterexample): the claim says every unparsable metric string
yields an omitted field, but `parseCount` on the unparsable string
`"OK"` strips the `K`, runs `parseFloat("O")` (NaN), and returns a NaN
value — the field is set to NaN, not omitted. -/
theorem c9_counterexample :
    TweetParser.parseCount (some "OK") = some JsNumber.nan ∧
    some JsNumber.nan ≠ (none : Option JsNumber) ∧
    (TweetParser.extractMetrics (some "OK") none none).replies =
      some JsNumber.nan := by
  refine ⟨by decide, by decide, by decide⟩

/-- C9 (amended): `"1.2K"` parses to 1200, `"2.5M"` to 2500000,
`"1,234"` to 1234, the empty string and absent elements yield an
omitted field, and an unparsable string without `K`/`M` yields an
omitted field; but an unparsable string whose upper-cased trimmed form
contains `K` (resp. `M`) yields a NaN-valued (set, not omitted)
field. -/
theorem c9_amended :
    TweetParser.parseCount (some "1.2K") = some (JsNumber.num 1200) ∧
    TweetParser.parseCount (some "2.5M") = some (JsNumber.num 2500000) ∧
    TweetParser.parseCount (some "1,234") = some (JsNumber.num 1234) ∧
    TweetParser.parseCount (some "") = none ∧
    TweetParser.parseCount none = none ∧
    TweetParser.extractMetrics (some "") none none =
      { replies := none, retweets := none, likes := none } ∧
    (∀ t : String, t ≠ "" →
      jsToUpper (jsTrim t) ≠ "" →
      (jsToUpper (jsTrim t)).data.contains 'K' = false →
      (jsToUpper (jsTrim t)).data.contains 'M' = false →
      jsParseInt (String.mk (removeAll (jsToUpper (jsTrim t)).data ',')) = none →
      TweetParser.parseCount (some t) = none) ∧
    (∀ t : String, t ≠ "" →
      jsToUpper (jsTrim t) ≠ "" →
      (jsToUpper (jsTrim t)).data.contains 'K' = true →
      jsParseFloat (String.mk (removeFirst (jsToUpper (jsTrim t)).data 'K')) =
        JsNumber.nan →
      TweetParser.parseCount (some t) = some JsNumber.nan) := by
  refine ⟨?_, ?_, ?_, by decide, rfl, by decide, ?_, ?_⟩
  · have h1 : TweetParser.parseCount (some "1.2K") =
        some (jsRound (jsMulNat (jsParseFloat
          (String.mk (removeFirst (jsToUpper (jsTrim "1.2K")).data 'K'))) 1000)) := by
      simp only [TweetParser.parseCount]
      rw [if_neg (by decide), if_neg (by decide), if_pos (by decide)]
    have h2 : String.mk (removeFirst (jsToUpper (jsTrim "1.2K")).data 'K') =
        "1.2" := by decide
    have h3 : parseFloatParts "1.2" = some (false, ['1'], ['2']) := by decide
    have h4 : digitsToNat (['1'] ++ ['2']) = 12 := by decide
    rw [h1, h2]
    simp only [jsParseFloat, h3, h4, jsMulNat, jsRound]
    norm_num
  · have h1 : TweetParser.parseCount (some "2.5M") =
        some (jsRound (jsMulNat (jsParseFloat
          (String.mk (removeFirst (jsToUpper (jsTrim "2.5M")).data 'M'))) 1000000)) := by
      simp only [TweetParser.parseCount]
      rw [if_neg (by decide), if_neg (by decide), if_neg (by decide),
        if_pos (by decide)]
    have h2 : String.mk (removeFirst (jsToUpper (jsTrim "2.5M")).data 'M') =
        "2.5" := by decide
    have h3 : parseFloatParts "2.5" = some (false, ['2'], ['5']) := by decide
    have h4 : digitsToNat (['2'] ++ ['5']) = 25 := by decide
    rw [h1, h2]
    simp only [jsParseFloat, h3, h4, jsMulNat, jsRound]
    norm_num
  · have h1 : TweetParser.parseCount (some "1,234") =
        match jsParseInt
            (String.mk (removeAll (jsToUpper (jsTrim "1,234")).data ',')) with
          | none => none
          | some n => some (.num n) := by
      simp only [TweetParser.parseCount]
      rw [if_neg (by decide), if_neg (by decide), if_neg (by decide),
        if_neg (by decide)]
    have h2 : jsParseInt
        (String.mk (removeAll (jsToUpper (jsTrim "1,234")).data ',')) =
        some 1234 := by decide
    rw [h1, h2]
    norm_num
  · intro t ht hct hk hm hp
    simp only [TweetParser.parseCount, if_neg ht, if_neg hct, hk, hm, hp,
      Bool.false_eq_true, if_false]
  · intro t ht hct hk hf
    simp only [TweetParser.parseCount, if_neg ht, if_neg hct, hk, if_true, hf]
    rfl

/-- C9 (witness for the amended universals): `"abc"` has no `K`/`M`
and is unparsable, so the field is omitted; `"OK"` contains `K` with a
NaN float, so the field is set to NaN. -/
theorem c9_witness :
    TweetParser.parseCount (some "abc") = none ∧
    TweetParser.parseCount (some "OK") = some JsNumber.nan := by
  constructor
  · exact c9_amended.2.2.2.2.2.2.1 "abc" (by decide) (by decide) (by decide)
      (by decide) (by decide)
  · exact c9_amended.2.2.2.2.2.2.2 "OK" (by decide) (by decide) (by decide)
      (by decide)

/-! ## C10: HTML escaping in the injected result markup -/

theorem escChar_count_lt (c : Char) : (escChar c).count '<' = 0 := by
  unfold escChar
  split_ifs with h1 h2 h3
  · decide
  · decide
  · decide
  · simp [List.count_cons, h2]

theorem escChar_count_gt (c : Char) : (escChar c).count '>' = 0 := by
  unfold escChar
  split_ifs with h1 h2 h3
  · decide
  · decide
  · decide
  · simp [List.count_cons, h3]

theorem escList_count_lt (l : List Char) : (escList l).count '<' = 0 := by
  induction l with
  | nil => rfl
  | cons c cs ih =>
    simp only [escList, List.count_append, ih, escChar_count_lt]

theorem escList_count_gt (l : List Char) : (escList l).count '>' = 0 := by
  induction l with
  | nil => rfl
  | cons c cs ih =>
    simp only [escList, List.count_append, ih, escChar_count_gt]

/-- C10 (confirmed): both `showTranslation` and `showError` interpolate
the input string only through `escapeHtml`, and the escaped string
contains no `<` or `>` at all, so the number of markup-opening
characters in the rendered fragment is the same for every input — no
input string can introduce raw HTML elements into the injected UI. -/
theorem c10_html_escaping :
    ∀ translatedText errorMessage : String,
      showTranslationHtml translatedText =
        showTranslationPre ++ escapeHtml translatedText ++ showTranslationPost ∧
      showErrorHtml errorMessage =
        showErrorPre ++ escapeHtml errorMessage ++ showErrorPost ∧
      (escapeHtml translatedText).data.count '<' = 0 ∧
      (escapeHtml translatedText).data.count '>' = 0 ∧
      (escapeHtml errorMessage).data.count '<' = 0 ∧
      (showTranslationHtml translatedText).data.count '<' =
        (showTranslationHtml "").data.count '<' ∧
      (showErrorHtml errorMessage).data.count '<' =
        (showErrorHtml "").data.count '<' := by
  intro t m
  have hdata : ∀ s : String, (escapeHtml s).data = escList s.data := by
    intro s; rfl
  have htr : ∀ s : String, (showTranslationHtml s).data.count '<' =
      (showTranslationPre.data.count '<') + (showTranslationPost.data.count '<') := by
    intro s
    show ((showTranslationPre ++ escapeHtml s ++ showTranslationPost).data).count '<' = _
    rw [String.data_append, String.data_append, List.count_append,
      List.count_append, hdata, escList_count_lt]
    omega
  have her : ∀ s : String, (showErrorHtml s).data.count '<' =
      (showErrorPre.data.count '<') + (showErrorPost.data.count '<') := by
    intro s
    show ((showErrorPre ++ escapeHtml s ++ showErrorPost).data).count '<' = _
    rw [String.data_append, String.data_append, List.count_append,
      List.count_append, hdata, escList_count_lt]
    omega
  refine ⟨rfl, rfl, ?_, ?_, ?_, ?_, ?_⟩
  · rw [hdata]; exact escList_count_lt t.data
  · rw [hdata]; exact escList_count_gt t.data
  · rw [hdata]; exact escList_count_lt m.data
  · rw [htr t, htr ""]
  · rw [her m, her ""]

/-! ## C2: mutation debounce window -/

theorem foldl_observerCallback_passes (bs : List (List MRec)) :
    ∀ s : ObsState, (bs.foldl observerCallback s).passes = s.passes := by
  induction bs with
  | nil => intro s; rfl
  | cons b rest ih => intro s; exact ih (observerCallback s b)

theorem foldl_observerCallback_pending (bs : List (List MRec)) :
    ∀ (s : ObsState) (b : List MRec), bs.getLast? = some b →
      (bs.foldl observerCallback s).pending = some b := by
  induction bs with
  | nil => intro s b h; cases h
  | cons x rest ih =>
    intro s b h
    cases rest with
    | nil =>
      simp only [List.getLast?_singleton] at h
      cases h
      rfl
    | cons y ys =>
      rw [List.getLast?_cons_cons] at h
      exact ih (observerCallback s x) b h

/-- C2 (amended): within one debounce window, exactly one
classification pass runs, and it covers exactly the added nodes of the
*most recent* batch; added nodes of earlier batches in the window are
not covered. -/
theorem c2_amended (batches : List (List MRec)) (b : List MRec)
    (h : batches.getLast? = some b) :
    (windowRun batches).passes = [b] ∧
    (∀ n : Nat, coveredBy (windowRun batches) n ↔ n ∈ collectAdded b) := by
  have hrun : windowRun batches = { pending := none, passes := [b] } := by
    unfold windowRun debounceFire
    rw [foldl_observerCallback_pending batches _ b h]
    rw [foldl_observerCallback_passes batches]
    rfl
  constructor
  · rw [hrun]
  · intro n
    rw [hrun]
    constructor
    · rintro ⟨ms, hms, hn⟩
      simp only [List.mem_singleton] at hms
      subst hms
      exact hn
    · intro hn
      exact ⟨b, List.mem_singleton.mpr rfl, hn⟩

/-- C2 (witness): a two-batch window, applying the amended theorem. -/
theorem c2_witness :
    (windowRun [[⟨[1]⟩], [⟨[2]⟩]]).passes = [[⟨[2]⟩]] ∧
    (coveredBy (windowRun [[⟨[1]⟩], [⟨[2]⟩]]) 2 ↔
      2 ∈ collectAdded [⟨[2]⟩]) :=
  ⟨(c2_amended [[⟨[1]⟩], [⟨[2]⟩]] [⟨[2]⟩] rfl).1,
   (c2_amended [[⟨[1]⟩], [⟨[2]⟩]] [⟨[2]⟩] rfl).2 2⟩

/-- C2 (counterexample): two mutation batches inside one debounce
window; node 1 is among the added nodes of the first batch (hence in
the union over the window), but the single pass performed covers only
the second batch, so node 1 is dropped — the claim's union coverage
fails. -/
theorem c2_counterexample :
    1 ∈ collectAdded [⟨[1]⟩] ∧
    (windowRun [[⟨[1]⟩], [⟨[2]⟩]]).passes = [[⟨[2]⟩]] ∧
    ¬ coveredBy (windowRun [[⟨[1]⟩], [⟨[2]⟩]]) 1 := by
  refine ⟨by decide, by decide, ?_⟩
  rintro ⟨ms, hms, hn⟩
  have hps : (windowRun [[⟨[1]⟩], [⟨[2]⟩]]).passes = [[⟨[2]⟩]] := by decide
  rw [hps] at hms
  simp only [List.mem_singleton] at hms
  subst hms
  revert hn
  decide

/-! ## C4: processed-set eviction -/

theorem insertAll_eq_self {α : Type} [DecidableEq α] :
    ∀ (xs acc : List α), xs.Nodup → (∀ x ∈ xs, x ∉ acc) →
      xs.foldl jsSetAdd acc = acc ++ xs := by
  intro xs
  induction xs with
  | nil => intro acc _ _; simp
  | cons x rest ih =>
    intro acc hnd hdisj
    have hx : x ∉ acc := hdisj x (List.mem_cons_self _ _)
    have hstep : jsSetAdd acc x = acc ++ [x] := by
      unfold jsSetAdd
      rw [if_neg hx]
    rw [List.foldl_cons, hstep]
    rw [ih (acc ++ [x]) (List.Nodup.of_cons hnd) ?_]
    · simp
    · intro y hy
      rw [List.mem_append]
      rintro (hya | hyx)
      · exact hdisj y (List.mem_cons_of_mem _ hy) hya
      · simp only [List.mem_singleton] at hyx
        subst hyx
        exact (List.nodup_cons.mp hnd).1 hy

/-- C4 (confirmed): inserting `1000 + k` distinct ids into the empty
processed set and trimming leaves exactly `1000` ids; the `k`
oldest-inserted ids are gone and the rest remain, in FIFO order. -/
theorem c4_eviction {α : Type} [DecidableEq α] (xs : List α) (k : Nat)
    (hnd : xs.Nodup) (hlen : xs.length = 1000 + k) :
    (cleanupProcessedTweets (insertAll xs)).length = 1000 ∧
    (∀ x ∈ xs.take k, x ∉ cleanupProcessedTweets (insertAll xs)) ∧
    (∀ x ∈ xs.drop k, x ∈ cleanupProcessedTweets (insertAll xs)) ∧
    cleanupProcessedTweets (insertAll xs) = xs.drop k := by
  have hins : insertAll xs = xs := by
    have := insertAll_eq_self xs [] hnd (by intro x _; simp)
    simpa [insertAll] using this
  have hclean : cleanupProcessedTweets xs = xs.drop k := by
    unfold cleanupProcessedTweets
    by_cases hk : k = 0
    · subst hk
      rw [if_neg (by omega)]
      simp
    · rw [if_pos (by omega)]
      have harith : xs.length - 1000 = k := by omega
      rw [harith]
  have hdisj : ∀ x ∈ xs.take k, x ∉ xs.drop k := by
    have hsplit : xs.take k ++ xs.drop k = xs := List.take_append_drop k xs
    have : (xs.take k ++ xs.drop k).Nodup := by rwa [hsplit]
    exact fun x hx hd => (List.nodup_append.mp this).2.2 hx hd
  refine ⟨?_, ?_, ?_, ?_⟩
  · rw [hins, hclean, List.length_drop, hlen]
    omega
  · intro x hx
    rw [hins, hclean]
    exact hdisj x hx
  · intro x hx
    rw [hins, hclean]
    exact hx
  · rw [hins, hclean]

/-- C4 (witness): 1001 distinct ids, trim to 1000, oldest id evicted. -/
theorem c4_witness :
    (cleanupProcessedTweets (insertAll (List.range 1001))).length = 1000 ∧
    0 ∉ cleanupProcessedTweets (insertAll (List.range 1001)) ∧
    cleanupProcessedTweets (insertAll (List.range 1001)) =
      (List.range 1001).drop 1 := by
  have h := c4_eviction (List.range 1001) 1 (List.nodup_range 1001)
    (by simp)
  refine ⟨h.1, h.2.1 0 ?_, h.2.2.2⟩
  rw [List.take_range]
  decide

/-! ## C3: dedup of injection per node / per id -/

/-- The dedup invariant: an id is never handed to the injector more
than once, creations never exceed invocations, and any invoked id is
in the processed set. -/
def InvC (s : CState) : Prop :=
  ∀ id : String,
    s.inj.invoked id ≤ 1 ∧
    s.inj.created id ≤ s.inj.invoked id ∧
    (s.inj.invoked id ≠ 0 → id ∈ s.processedTweets)

theorem invC_init : InvC initCState := by
  intro id
  refine ⟨by simp [initCState], by simp [initCState], ?_⟩
  intro h
  simp [initCState] at h

theorem mem_jsSetAdd_self {α : Type} [DecidableEq α] (s : List α) (x : α) :
    x ∈ jsSetAdd s x := by
  unfold jsSetAdd
  split
  · assumption
  · simp

theorem mem_jsSetAdd_of_mem {α : Type} [DecidableEq α] {s : List α} {y : α}
    (x : α) (h : y ∈ s) : y ∈ jsSetAdd s x := by
  unfold jsSetAdd
  split
  · exact h
  · exact List.mem_append_left _ h

theorem invC_step (s : CState) (node : Nat) (parsed : Option String)
    (hinv : InvC s) : InvC (processTweetElement s node parsed) := by
  unfold processTweetElement
  split
  · exact hinv
  · match parsed with
    | none => exact hinv
    | some id =>
      simp only
      split
      · exact hinv
      · rename_i hmarked hid
        intro id'
        by_cases he : id' = id
        · subst he
          have hzero : s.inj.invoked id' = 0 := by
            by_contra hnz
            exact hid ((hinv id').2.2 hnz)
          have hc : s.inj.created id' = 0 := by
            have := (hinv id').2.1
            omega
          constructor
          · show (injectTranslateButton s.inj id').invoked id' ≤ 1
            unfold injectTranslateButton
            split <;> simp [bumpAt, hzero]
          constructor
          · show (injectTranslateButton s.inj id').created id' ≤
              (injectTranslateButton s.inj id').invoked id'
            unfold injectTranslateButton
            split <;> simp [bumpAt, hzero, hc]
          · intro _
            exact mem_jsSetAdd_self _ _
        · have hb1 : (injectTranslateButton s.inj id).invoked id' =
              s.inj.invoked id' := by
            unfold injectTranslateButton
            split <;> simp [bumpAt, he]
          have hb2 : (injectTranslateButton s.inj id).created id' =
              s.inj.created id' := by
            unfold injectTranslateButton
            split <;> simp [bumpAt, he]
          refine ⟨?_, ?_, ?_⟩
          · rw [hb1]; exact (hinv id').1
          · rw [hb1, hb2]; exact (hinv id').2.1
          · intro hnz
            rw [hb1] at hnz
            exact mem_jsSetAdd_of_mem _ ((hinv id').2.2 hnz)

theorem invC_fold (l : List (Nat × Option String)) :
    ∀ s : CState, InvC s →
      InvC (l.foldl (fun s e => processTweetElement s e.1 e.2) s) := by
  induction l with
  | nil => intro s h; exact h
  | cons e rest ih =>
    intro s h
    exact ih _ (invC_step s e.1 e.2 h)

theorem invC_run (hist : List (Nat × Option String)) : InvC (runHistory hist) :=
  invC_fold hist initCState invC_init

theorem marked_step_id {s : CState} {node : Nat} (parsed : Option String)
    (h : node ∈ s.markedNodes) : processTweetElement s node parsed = s := by
  unfold processTweetElement
  rw [if_pos h]

/-- C3 (confirmed): once a node carries the processed marker,
re-delivering it in any number of later mutation batches leaves the
content-script state — including the injector — completely unchanged,
and in every reachable state the injector has been invoked at most
once per id and has created at most one DOM subtree per id. -/
theorem c3_dedup (hist : List (Nat × Option String)) (node : Nat)
    (ds : List (Option String))
    (hmark : node ∈ (runHistory hist).markedNodes) :
    ds.foldl (fun s pr => processTweetElement s node pr) (runHistory hist) =
      runHistory hist ∧
    (∀ id : String, (runHistory hist).inj.invoked id ≤ 1 ∧
      (runHistory hist).inj.created id ≤ 1) := by
  constructor
  · induction ds with
    | nil => rfl
    | cons d rest ih =>
      rw [List.foldl_cons, marked_step_id d hmark]
      exact ih
  · intro id
    have h := invC_run hist id
    exact ⟨h.1, le_trans h.2.1 h.1⟩

/-- C3 (witness): one processed tweet, then two re-deliveries of the
same marked node. -/
theorem c3_witness :
    [some "t1", some "t1"].foldl
      (fun s pr => processTweetElement s 0 pr)
      (runHistory [(0, some "t1")]) = runHistory [(0, some "t1")] ∧
    (runHistory [(0, some "t1")]).inj.invoked "t1" ≤ 1 ∧
    (runHistory [(0, some "t1")]).inj.created "t1" ≤ 1 := by
  have h := c3_dedup [(0, some "t1")] 0 [some "t1", some "t1"] (by decide)
  exact ⟨h.1, (h.2 "t1").1, (h.2 "t1").2⟩

/-! ## C8: retry budget, backoff cap, retryable classification -/

theorem translateWithRetry_calls_le
    (res : Nat → Except TranslationErr String) (jit : Nat → ℚ) :
    ∀ (maxRetries attempt : Nat),
      (translateWithRetry res jit maxRetries attempt).2.1 ≤
        maxRetries - attempt + 1 := by
  intro maxRetries
  have H : ∀ (n attempt : Nat), maxRetries - attempt = n →
      (translateWithRetry res jit maxRetries attempt).2.1 ≤
        maxRetries - attempt + 1 := by
    intro n
    induction n using Nat.strong_induction_on with
    | _ n ih =>
      intro attempt hn
      rw [translateWithRetry]
      cases res attempt with
      | ok v => simp
      | error e =>
        simp only
        split
        · rename_i hcond
          have hlt : attempt < maxRetries := hcond.2
          have hrec := ih (maxRetries - (attempt + 1)) (by omega) (attempt + 1)
            rfl
          simp only at hrec ⊢
          omega
        · simp
  exact fun attempt => H (maxRetries - attempt) attempt rfl

theorem translateWithRetry_delays
    (res : Nat → Except TranslationErr String) (jit : Nat → ℚ) :
    ∀ (maxRetries attempt : Nat) (d : ℚ),
      d ∈ (translateWithRetry res jit maxRetries attempt).2.2 →
        ∃ i : Nat, d = calculateBackoff i (jit i) := by
  intro maxRetries
  have H : ∀ (n attempt : Nat), maxRetries - attempt = n → ∀ d : ℚ,
      d ∈ (translateWithRetry res jit maxRetries attempt).2.2 →
        ∃ i : Nat, d = calculateBackoff i (jit i) := by
    intro n
    induction n using Nat.strong_induction_on with
    | _ n ih =>
      intro attempt hn d hd
      rw [translateWithRetry] at hd
      cases hres : res attempt with
      | ok v =>
        rw [hres] at hd
        simp at hd
      | error e =>
        rw [hres] at hd
        simp only at hd
        split at hd
        · rename_i hcond
          simp only [List.mem_cons] at hd
          rcases hd with hd | hd
          · exact ⟨attempt, hd⟩
          · exact ih (maxRetries - (attempt + 1)) (by omega) (attempt + 1)
              rfl d hd
        · simp at hd
  exact fun attempt => H (maxRetries - attempt) attempt rfl

/-- C8 (confirmed): the timeout abort is classified as a retryable
`NETWORK_TIMEOUT` error; a run of `translateWithRetry` makes at most
`maxRetries + 1` provider calls (so at most `retryAttempts` automatic
retries beyond the first call, `3` with the default configuration);
every backoff delay slept during a run is `2^attempt * 1000` plus the
jitter, capped at 30000 ms; and a non-retryable failure is surfaced
immediately, with no retry and no backoff sleep. -/
theorem c8_retry_policy :
    (classifyFetchFailure .abortTimeout =
      { code := "NETWORK_TIMEOUT", retryable := true }) ∧
    (∀ (res : Nat → Except TranslationErr String) (jit : Nat → ℚ),
      (translateWithRetry res jit defaultRetryAttempts 0).2.1 ≤
        defaultRetryAttempts + 1) ∧
    (∀ (res : Nat → Except TranslationErr String) (jit : Nat → ℚ)
        (maxRetries : Nat),
      (translateWithRetry res jit maxRetries 0).2.1 ≤ maxRetries + 1) ∧
    (∀ (attempt : Nat) (j : ℚ), 0 ≤ j → j < 1000 →
      calculateBackoff attempt j =
        min ((2 : ℚ) ^ attempt * 1000 + j) 30000 ∧
      calculateBackoff attempt j ≤ 30000) ∧
    (∀ (res : Nat → Except TranslationErr String) (jit : Nat → ℚ)
        (maxRetries : Nat) (d : ℚ),
      (∀ i, 0 ≤ jit i ∧ jit i < 1000) →
      d ∈ (translateWithRetry res jit maxRetries 0).2.2 → d ≤ 30000) ∧
    (∀ (res : Nat → Except TranslationErr String) (jit : Nat → ℚ)
        (maxRetries : Nat) (e : TranslationErr),
      res 0 = .error e → e.retryable = false →
      translateWithRetry res jit maxRetries 0 = (.error e, 1, [])) := by
  refine ⟨rfl, ?_, ?_, ?_, ?_, ?_⟩
  · intro res jit
    have := translateWithRetry_calls_le res jit defaultRetryAttempts 0
    omega
  · intro res jit maxRetries
    have := translateWithRetry_calls_le res jit maxRetries 0
    omega
  · intro attempt j _ _
    exact ⟨rfl, min_le_right _ _⟩
  · intro res jit maxRetries d hj hd
    obtain ⟨i, hi⟩ := translateWithRetry_delays res jit maxRetries 0 d hd
    rw [hi]
    exact min_le_right _ _
  · intro res jit maxRetries e hres hret
    rw [translateWithRetry, hres]
    simp only
    rw [dif_neg (by simp [hret])]

/-- C8 (witness): a permanently failing retryable provider with
default settings makes at most 4 calls; a non-retryable error stops
после one call; the concrete backoff at attempt 0 with jitter 500 is
capped correctly. -/
theorem c8_witness :
    (translateWithRetry
      (fun _ => .error { code := "API_SERVER_ERROR", retryable := true })
      (fun _ => 500) defaultRetryAttempts 0).2.1 ≤ defaultRetryAttempts + 1 ∧
    calculateBackoff 0 500 = min ((2 : ℚ) ^ 0 * 1000 + 500) 30000 ∧
    translateWithRetry
      (fun _ => .error { code := "API_UNAUTHORIZED", retryable := false })
      (fun _ => 500) defaultRetryAttempts 0 =
      (.error { code := "API_UNAUTHORIZED", retryable := false }, 1, []) := by
  refine ⟨?_, ?_, ?_⟩
  · exact c8_retry_policy.2.1 _ _
  · exact (c8_retry_policy.2.2.2.1 0 500 (by norm_num) (by norm_num)).1
  · exact c8_retry_policy.2.2.2.2.2 _ _ defaultRetryAttempts _ rfl rfl

/-! ## C6: second identical request served from cache -/

/-- C6 (amended): when the extension is configured (API key and
endpoint present), the cache is enabled, the source text is non-blank,
and the store holds a non-blank, non-expired entry under the derived
key, then the request is answered with the cached translation, marked
`fromCache = true`, without invoking the completion provider (for
every possible provider outcome); the store only gets the entry's hit
counter bumped. -/
theorem c6_cache_hit (cfg : BgConfig) (st : Store) (now : Nat)
    (text targetLang sourceLang : String) (e : CacheEntry)
    (prov : Except TranslationErr (String × Nat))
    (hkey : cfg.apiKey ≠ "") (hep : cfg.endpoint ≠ "")
    (htext : jsTrim text ≠ "") (hce : cfg.cacheEnabled = true)
    (hhit : storageGet st (generateCacheKey text targetLang) = some e)
    (hne : jsTrim e.translatedText ≠ "")
    (hfresh : isExpired now e.timestamp cfg.cacheMaxAge = false) :
    handleTranslateRequest cfg st now text targetLang sourceLang prov =
      (.result e.translatedText true, false,
       storageSet st (generateCacheKey text targetLang)
         { e with hitCount := e.hitCount + 1 }) := by
  unfold handleTranslateRequest
  rw [if_neg hkey, if_neg hep, if_neg htext, if_pos hce]
  unfold getCachedTranslation getCacheEntry
  rw [hhit]
  simp only [if_neg hne, hfresh, Bool.false_eq_true, if_false]

/-- C6 (witness): the scenario-B store with a cached `"你好"` for
(`"Hello"`, `"zh"`), second request answered from cache. -/
theorem c6_witness :
    handleTranslateRequest cfgOk exStore 2000 "Hello" "zh" "auto"
      (.ok ("PROVIDER", 3)) =
      (.result exEntry.translatedText true, false,
       storageSet exStore (generateCacheKey "Hello" "zh")
         { exEntry with hitCount := exEntry.hitCount + 1 }) := by
  exact c6_cache_hit cfgOk exStore 2000 "Hello" "zh" "auto" exEntry
    (.ok ("PROVIDER", 3)) (by decide) (by decide) (by decide) rfl
    (by decide) (by decide) (by decide)

/-- C6 (counterexample): the claim quantifies over *every* translation
request whose pair has a valid cached result, but when the API key is
unconfigured the handler answers with a config error before ever
consulting the cache — the response is not served from the cache and
carries no `fromCache = true`, although the store holds a non-blank,
non-expired entry for the pair. -/
theorem c6_counterexample :
    storageGet exStore (generateCacheKey "Hello" "zh") = some exEntry ∧
    jsTrim exEntry.translatedText ≠ "" ∧
    isExpired 2000 exEntry.timestamp cfgNoKey.cacheMaxAge = false ∧
    cfgNoKey.cacheEnabled = true ∧
    handleTranslateRequest cfgNoKey exStore 2000 "Hello" "zh" "auto"
      (.ok ("PROVIDER", 3)) =
      (.error "CONFIG_MISSING_API_KEY" false, false, exStore) := by
  refine ⟨by decide, by decide, by decide, rfl, ?_⟩
  unfold handleTranslateRequest
  rw [if_pos (by decide)]

/-! ## C7: empty or whitespace-only provider text -/

/-- C7 (amended): a blank (empty or whitespace-only) provider
translation is never written to the cache store —
`cacheTranslation` is a no-op for it — but the background does *not*
treat it as an error: on a cache miss it returns an ordinary
`TRANSLATE_RESULT` carrying the blank text with `fromCache = false`,
which the content script renders via `showTranslation` (displayed as
translated content). -/
theorem c7_blank_translation :
    (∀ (st : Store) (now maxEntries : Nat)
        (text translatedText sourceLang targetLang : String) (tok : Nat),
      jsTrim translatedText = "" →
      cacheTranslation st now maxEntries text translatedText sourceLang
        targetLang tok = st) ∧
    (∀ (cfg : BgConfig) (st : Store) (now : Nat)
        (text targetLang sourceLang raw : String) (tokens : Nat),
      cfg.apiKey ≠ "" → cfg.endpoint ≠ "" → jsTrim text ≠ "" →
      cfg.cacheEnabled = true →
      storageGet st (generateCacheKey text targetLang) = none →
      jsTrim raw = "" →
      handleTranslateRequest cfg st now text targetLang sourceLang
          (.ok (apiResultText (some raw), tokens)) =
        (.result "" false, true, st) ∧
      uiActionOf (.result "" false) = .showTranslationA "") := by
  constructor
  · intro st now maxEntries text translatedText sourceLang targetLang tok hbl
    unfold cacheTranslation
    rw [if_pos hbl]
  · intro cfg st now text targetLang sourceLang raw tokens hkey hep htext hce
      hmiss hraw
    have hblank : apiResultText (some raw) = "" := by
      unfold apiResultText
      simpa using hraw
    constructor
    · unfold handleTranslateRequest
      rw [if_neg hkey, if_neg hep, if_neg htext, if_pos hce]
      unfold getCachedTranslation getCacheEntry
      rw [hmiss]
      simp only [hblank]
      have hnoop : cacheTranslation st now cfg.cacheMaxEntries text ""
          "auto" targetLang tokens = st := by
        unfold cacheTranslation
        rw [if_pos (by decide)]
      rw [if_pos hce, hnoop]
    · rfl

/-- C7 (witness): a provider returning only whitespace yields a
successful empty `TRANSLATE_RESULT` (displayed), with the store
untouched. -/
theorem c7_witness :
    handleTranslateRequest cfgOk [] 0 "Hello" "zh" "auto"
      (.ok (apiResultText (some "   "), 0)) =
      (.result "" false, true, []) ∧
    uiActionOf (.result "" false) = .showTranslationA "" := by
  exact c7_blank_translation.2 cfgOk [] 0 "Hello" "zh" "auto" "   " 0
    (by decide) (by decide) (by decide) rfl (by decide) (by decide)

/-- C7 (counterexample): the claim says a blank `translatedText` is
treated as an error and never displayed as translated content; but for
a provider response whose content trims to the empty string the
background returns a non-error `TRANSLATE_RESULT` (`fromCache =
false`) and the content script dispatches it to `showTranslation` —
the blank result is displayed as content, not surfaced as an error.
(The cache half of the claim does hold: the store stays unchanged.) -/
theorem c7_counterexample :
    handleTranslateRequest cfgOk [] 0 "Hello" "zh" "auto" (.ok ("", 0)) =
      (.result "" false, true, []) ∧
    uiActionOf (.result "" false) = .showTranslationA "" := by
  exact ⟨by decide, rfl⟩

/-! ## DOM traversal lemmas for C1 and C5 -/

mutual

theorem mem_scanEls (anc : Dom → Bool) :
    ∀ (flag : Bool) (d : Dom) (p : Dom × Bool),
      p ∈ scanEls anc flag d → p.1 ∈ descendants d
  | _, .text _, _, h => by simp [scanEls] at h
  | flag, .elem t a cs, p, h => by
    rw [scanEls] at h
    rw [descendants]
    exact mem_scanElsL anc _ cs p h

theorem mem_scanElsL (anc : Dom → Bool) :
    ∀ (flag : Bool) (ds : List Dom) (p : Dom × Bool),
      p ∈ scanElsL anc flag ds → p.1 ∈ descList ds
  | _, [], _, h => by simp [scanElsL] at h
  | flag, .text s :: ds, p, h => by
    rw [scanElsL] at h
    rw [descList]
    exact List.mem_append_right _ (mem_scanElsL anc flag ds p h)
  | flag, .elem t a cs :: ds, p, h => by
    rw [scanElsL] at h
    rw [descList]
    simp only [List.cons_append, List.mem_cons, List.mem_append] at h ⊢
    rcases h with hself | hin | hrest
    · left; rw [hself]
    · right; left
      exact mem_scanEls anc flag (.elem t a cs) p hin
    · right; right
      exact mem_scanElsL anc flag ds p hrest

end

mutual

theorem brOk_descend :
    ∀ (d x : Dom), brOk d = true → x ∈ descendants d → brOk x = true
  | .text _, x, _, hx => by simp [descendants] at hx
  | .elem t a cs, x, hbr, hx => by
    rw [descendants] at hx
    rw [brOk] at hbr
    exact brOk_descendL cs x (Bool.and_elim_right hbr) hx

theorem brOk_descendL :
    ∀ (ds : List Dom) (x : Dom), brOkL ds = true → x ∈ descList ds →
      brOk x = true
  | [], x, _, hx => by simp [descList] at hx
  | .text s :: ds, x, hbr, hx => by
    rw [descList] at hx
    rw [brOkL] at hbr
    simp only [List.nil_append] at hx
    exact brOk_descendL ds x (Bool.and_elim_right hbr) hx
  | .elem t a cs :: ds, x, hbr, hx => by
    rw [descList] at hx
    rw [brOkL] at hbr
    have hbd : brOk (.elem t a cs) = true := Bool.and_elim_left hbr
    simp only [List.cons_append, List.mem_cons, List.mem_append] at hx
    rcases hx with hself | hx
    · rw [hself]; exact hbd
    rcases hx with hin | hrest
    · exact brOk_descend (.elem t a cs) x hbd hin
    · exact brOk_descendL ds x (Bool.and_elim_right hbr) hrest

end

mutual

theorem mem_textContentBr {c : Char} (hc : jsWs c = false) :
    ∀ d : Dom, brOk d = true → c ∈ textContentL d → c ∈ textContentBrL d
  | .text s, _, h => by
    rw [textContentL] at h
    rw [textContentBrL]
    exact h
  | .elem t a cs, hbr, h => by
    rw [textContentL] at h
    rw [textContentBrL]
    rw [brOk] at hbr
    by_cases ht : (t == "br") = true
    · have hcs : cs.isEmpty = true := by
        have h1 := Bool.and_elim_left hbr
        rcases Bool.or_eq_true_iff.mp h1 with hne | he
        · have heq : t = "br" := by simpa using ht
          have hne' : t ≠ "br" := by simpa using hne
          exact absurd heq hne'
        · exact he
      have : cs = [] := by
        cases cs
        · rfl
        · simp [List.isEmpty] at hcs
      subst this
      rw [textContentLs] at h
      cases h
    · rw [if_neg ht]
      exact mem_textContentBrL hc cs (Bool.and_elim_right hbr) h

theorem mem_textContentBrL {c : Char} (hc : jsWs c = false) :
    ∀ ds : List Dom, brOkL ds = true → c ∈ textContentLs ds →
      c ∈ textContentBrLs ds
  | [], _, h => by
    rw [textContentLs] at h
    cases h
  | d :: ds, hbr, h => by
    rw [textContentLs] at h
    rw [textContentBrLs]
    rw [brOkL] at hbr
    rcases List.mem_append.mp h with hd | hrest
    · exact List.mem_append_left _
        (mem_textContentBr hc d (Bool.and_elim_left hbr) hd)
    · exact List.mem_append_right _
        (mem_textContentBrL hc ds (Bool.and_elim_right hbr) hrest)

end

theorem spanList_subset_descendants {e : Dom} {sp : Dom}
    (h : sp ∈ spanList e) : sp ∈ descendants e := by
  unfold spanList spansWithCtrl descendantsCtx at h
  obtain ⟨p, hp, hfst⟩ := List.mem_map.mp h
  have hmem := (List.mem_filter.mp hp).1
  rw [← hfst]
  exact mem_scanEls isCtrl false e p hmem

/-! ## C5 and C1: id extraction, validity and text lemmas -/

theorem extractTweetId_status (e : Dom) (d : String)
    (hex : ∃ a ∈ descendants e, isStatusAnchor a = true)
    (hall : ∀ a ∈ descendants e, isStatusAnchor a = true →
      TweetParser.anchorStatusId a = some d) :
    ∀ freshId : String, TweetParser.extractTweetId e freshId = d := by
  intro freshId
  obtain ⟨lnk, hfind⟩ := find?_isSome_of_exists hex
  have hmem : lnk ∈ descendants e := List.mem_of_find?_eq_some hfind
  have hp : isStatusAnchor lnk = true := List.find?_some hfind
  have hid := hall lnk hmem hp
  unfold TweetParser.extractTweetId querySelectorP
  rw [hfind]
  simp only [hid]

theorem isValid_of_article_span (e : Dom)
    (hart : tagOf e = "article")
    (hany : (spansWithCtrl e).any TweetParser.spanQualifies = true) :
    TweetParser.isValidTweetElement e = true := by
  unfold TweetParser.isValidTweetElement
  simp only [hart]
  have hgate : (("article" : String) == "article") = true := by decide
  rw [hgate]
  simp only [Bool.not_true, Bool.false_and, Bool.false_eq_true, if_false]
  split
  · rfl
  · split
    · rfl
    · rfl

theorem extractText_fallback_ne (e : Dom)
    (h6 : (querySelectorP isTweetText e).isNone = true)
    (h7 : (firstDivAutoSpan e).isNone = true)
    (hex : ∃ sp ∈ spanList e, (trimL (textContentL sp)).length > 10)
    (hbr : brOk e = true) :
    TweetParser.extractText e ≠ "" := by
  have h6x : querySelectorP isTweetText e = none := by
    rwa [Option.isNone_iff_eq_none] at h6
  have h7x : firstDivAutoSpan e = none := by
    rwa [Option.isNone_iff_eq_none] at h7
  have hex2 : ∃ sp ∈ spanList e,
      (fun sp => decide ((trimL (textContentL sp)).length > 10)) sp = true := by
    obtain ⟨sp, hmem, hlen⟩ := hex
    exact ⟨sp, hmem, by simpa using hlen⟩
  obtain ⟨sp0, hfind⟩ := find?_isSome_of_exists hex2
  have hlen0 : (trimL (textContentL sp0)).length > 10 := by
    have := List.find?_some hfind
    simpa using this
  have hmem0 : sp0 ∈ spanList e := List.mem_of_find?_eq_some hfind
  have hbr0 : brOk sp0 = true :=
    brOk_descend e sp0 hbr (spanList_subset_descendants hmem0)
  have htne : trimL (textContentL sp0) ≠ [] := by
    intro hnil
    rw [hnil] at hlen0
    simp at hlen0
  obtain ⟨c, hcmem, hcws⟩ := exists_not_ws_of_trim_ne_nil htne
  have hc2 : c ∈ textContentBrL sp0 := mem_textContentBr hcws sp0 hbr0 hcmem
  have hc3 : c ∈ collapseWs (textContentBrL sp0) :=
    mem_trimL hcws (mem_collapseRuns hcws _ hc2)
  unfold TweetParser.extractText
  rw [h6x, h7x, hfind]
  exact string_mk_ne_empty_of_mem hc3

/-- C5 (amended): for every node whose status-link anchors all carry
the digit segment `d` (and at least one such anchor exists, so the
query that the extractor issues finds one), two classification passes
over the same DOM state both resolve the id to `d` — the digits
verbatim — regardless of the impure fresh-id inputs of the passes. -/
theorem c5_amended (e : Dom) (d : String)
    (hex : ∃ a ∈ descendants e, isStatusAnchor a = true)
    (hall : ∀ a ∈ descendants e, isStatusAnchor a = true →
      TweetParser.anchorStatusId a = some d) :
    ∀ f1 f2 : String,
      TweetParser.extractTweetId e f1 = d ∧
      TweetParser.extractTweetId e f2 = d ∧
      TweetParser.extractTweetId e f1 = TweetParser.extractTweetId e f2 := by
  intro f1 f2
  have h := extractTweetId_status e d hex hall
  exact ⟨h f1, h f2, by rw [h f1, h f2]⟩

set_option maxRecDepth 4000 in
/-- C5 (witness): a single status-42 anchor, two passes with different
fresh-id inputs. -/
theorem c5_witness :
    TweetParser.extractTweetId c1ArticleContainer "f1" = "42" ∧
    TweetParser.extractTweetId c1ArticleContainer "f2" = "42" ∧
    TweetParser.extractTweetId c1ArticleContainer "f1" =
      TweetParser.extractTweetId c1ArticleContainer "f2" :=
  c5_amended c1ArticleContainer "42" (by decide) (by decide) "f1" "f2"

set_option maxRecDepth 4000 in
/-- C5 (counterexample): the node holds an anchor whose href carries
the numeric status segment 42, so the claim's premise holds; but the
extractor's `querySelector('a[href*="/status/"]')` picks the *first*
anchor containing `/status/` — here a digit-less one — so the regex
fails, the time fallback fails, and the id falls through to the
content hash: both passes agree, but the id is not the numeric segment
verbatim, refuting the claim as stated. -/
theorem c5_counterexample :
    (descendants c5Container).any
      (fun a => isStatusAnchor a &&
        (TweetParser.anchorStatusId a == some "42")) = true ∧
    TweetParser.extractTweetId c5Container "f1" =
      TweetParser.extractTweetId c5Container "f2" ∧
    TweetParser.extractTweetId c5Container "f1" ≠ "42" := by
  refine ⟨by decide, by decide, by decide⟩

/-- C1 (amended): an `article` container (the code's container gate)
all of whose status-link anchors carry the id 42, holding a `time`
element and a qualifying 30-character text span outside any
button/link-role control, with no tweet-text-attribute node, no
`div[dir="auto"]` span, and no social-context block, parses to a post
with id `"42"`, a non-empty text, and `isReply = false` — for every
fresh-id and clock input. -/
theorem c1_amended (e : Dom) (freshId now : String)
    (hart : tagOf e = "article")
    (hbr : brOk e = true)
    (hstatus_ex : ∃ a ∈ descendants e, isStatusAnchor a = true)
    (hstatus_all : ∀ a ∈ descendants e, isStatusAnchor a = true →
      TweetParser.anchorStatusId a = some "42")
    (htime : ∃ t ∈ descendants e, isTimeEl t = true)
    (hspan : ∃ p ∈ spansWithCtrl e, p.2 = false ∧
      (trimL (textContentL p.1)).length = 30 ∧
      startsWithUrl (trimL (textContentL p.1)) = false)
    (hnoTT : (querySelectorP isTweetText e).isNone = true)
    (hnoAuto : (firstDivAutoSpan e).isNone = true)
    (hnoSC : (querySelectorP isSocialContext e).isNone = true) :
    TweetParser.parse e freshId now =
      some { id := "42", text := TweetParser.extractText e,
             timestamp := TweetParser.extractTimestamp e now,
             isReply := false,
             isRetweet := TweetParser.isRetweetTweet e } ∧
    TweetParser.extractText e ≠ "" := by
  obtain ⟨p, hpmem, hctrl, hlen, hurl⟩ := hspan
  have hq : TweetParser.spanQualifies p = true := by
    simp only [TweetParser.spanQualifies, hctrl, hurl, hlen]
    decide
  have hvalid : TweetParser.isValidTweetElement e = true :=
    isValid_of_article_span e hart (List.any_eq_true.mpr ⟨p, hpmem, hq⟩)
  have hid : ∀ f : String, TweetParser.extractTweetId e f = "42" :=
    extractTweetId_status e "42" hstatus_ex hstatus_all
  have htext : TweetParser.extractText e ≠ "" := by
    apply extractText_fallback_ne e hnoTT hnoAuto ?_ hbr
    refine ⟨p.1, List.mem_map_of_mem _ hpmem, ?_⟩
    rw [hlen]
    omega
  have hreply : TweetParser.isReplyTweet e = false := by
    unfold TweetParser.isReplyTweet
    rw [Option.isNone_iff_eq_none.mp hnoSC]
  refine ⟨?_, htext⟩
  unfold TweetParser.parse
  rw [hvalid]
  simp only [Bool.not_true, Bool.false_eq_true, if_false, hid freshId]
  rw [if_neg (by decide)]
  rw [hreply]

set_option maxRecDepth 4000 in
/-- C1 (witness): the concrete scenario-A article container. -/
theorem c1_witness :
    TweetParser.parse c1ArticleContainer "fresh" "now" =
      some { id := "42", text := TweetParser.extractText c1ArticleContainer,
             timestamp := TweetParser.extractTimestamp c1ArticleContainer "now",
             isReply := false,
             isRetweet := TweetParser.isRetweetTweet c1ArticleContainer } ∧
    TweetParser.extractText c1ArticleContainer ≠ "" := by
  exact c1_amended c1ArticleContainer "fresh" "now" rfl (by decide)
    (by decide) (by decide) (by decide) (by decide) (by decide) (by decide)
    (by decide)

set_option maxRecDepth 4000 in
/-- C1 (counterexample): the very same scenario-A content — status-42
anchor, `time` element, qualifying 30-character span outside any
control — inside a plain `div` container is rejected outright by the
classifier's container gate (`article` / `data-testid="tweet"` /
`cellInnerDiv`), and `parse` returns `null`: the claim as stated, over
every container element, is false. -/
theorem c1_counterexample :
    (descendants c1DivContainer).any isStatusAnchor = true ∧
    ((descendants c1DivContainer).all (fun a =>
      !(isStatusAnchor a) || (TweetParser.anchorStatusId a == some "42"))) =
        true ∧
    (descendants c1DivContainer).any isTimeEl = true ∧
    (spansWithCtrl c1DivContainer).any (fun p =>
      !p.2 && ((trimL (textContentL p.1)).length == 30)) = true ∧
    TweetParser.parse c1DivContainer "fresh" "now" = none := by
  refine ⟨by decide, by decide, by decide, by decide, by decide⟩
